import Mathlib

/-
Verification development for the mongo-hhvm-driver core:
a shallow embedding of src/src/MongoCollection.cpp (the CRUD command
layer: insert / remove / update) and src/src/bson_decode.cpp (the BSON
visitor decoder), together with theorems settling the specification
claims about them.

Modelling conventions:
- HHVM `Array` (the PHP ordered hash used as both document and options
  mapping) is embedded as an insertion-ordered association list
  `HArray := List (String × Value)`; `Array::add` is key-replacing /
  appending (`hadd`), `operator[]` on a missing key yields PHP null
  (`hget`), matching HHVM semantics at every call site in the source.
- External collaborators (libmongoc driver calls, libbson iteration) are
  not repository code; each call's outcome is passed in as an explicit
  parameter (`InsertDriver`, `UpdateDriver`, child-visit outcomes), and
  every call the source makes to the driver, every resource acquisition
  and every release is recorded in an event trace (`Ev`), in program
  order, so that claims about submissions and resource handling are
  statements about the trace.
- C++ exceptions (`mongoThrow<...>`) become `Except MongoExn`.
-/

namespace MongoHHVM

/-- The dynamically typed value model (HHVM `Variant`) as it is used by
the two source files: PHP null, bool, int (int64), string, ordered
array, and a host object created through `create_object` (identified by
its class name and its packed constructor arguments). -/
inductive Value where
  | null : Value
  | bool (b : Bool) : Value
  | int (n : Int) : Value
  | str (s : String) : Value
  | arr (entries : List (String × Value)) : Value
  | obj (cls : String) (params : List Value) : Value

/-- HHVM `Array`: an insertion-ordered mapping from string keys to
values, keys unique. -/
abbrev HArray := List (String × Value)

/-- `Array::exists(key)`: whether the key is present. -/
def hexists (a : HArray) (k : String) : Bool :=
  a.any (fun p => p.1 = k)

/-- `Array::add(key, value)`: replace in place when the key is present
(keeping insertion order), append otherwise.  Every `add` in the source
is either guarded by `!exists` or uses a fresh key, where this coincides
with HHVM's behaviour. -/
def hadd (a : HArray) (k : String) (v : Value) : HArray :=
  if hexists a k then a.map (fun p => if p.1 = k then (k, v) else p)
  else a ++ [(k, v)]

/-- `Array::operator[](String key)` read access: the stored value, or
PHP null when the key is missing. -/
def hget (a : HArray) (k : String) : Value :=
  match a with
  | [] => .null
  | (k2, v) :: rest => if k2 = k then v else hget rest k

/-- Number of entries carrying the given key. -/
def countKey (a : HArray) (k : String) : Nat :=
  a.countP (fun p => decide (p.1 = k))

/-- Leading decimal digits of a character list, as a number
(helper for `Variant::toInt64` on strings, which parses a leading
integer like `strtoll`). -/
def leadingDigits : List Char → Nat → Nat
  | c :: cs, acc => if c.isDigit then leadingDigits cs (acc * 10 + (c.toNat - 48)) else acc
  | [], acc => acc

/-- `Variant::toInt64` on a string: parse an optional minus sign and
leading decimal digits, 0 otherwise. -/
def strToInt (s : String) : Int :=
  match s.data with
  | [] => 0
  | c :: cs => if c = '-' then -(leadingDigits cs 0 : Int) else (leadingDigits (c :: cs) 0 : Int)

/-- `Variant::toBoolean` (PHP truthiness). -/
def toBoolean : Value → Bool
  | .null => false
  | .bool b => b
  | .int n => n != 0
  | .str s => !(s = "" || s = "0")
  | .arr a => !a.isEmpty
  | .obj _ _ => true

/-- `Variant::toInt64` (PHP integer conversion). -/
def toInt64 : Value → Int
  | .null => 0
  | .bool b => if b then 1 else 0
  | .int n => n
  | .str s => strToInt s
  | .arr a => if a.isEmpty then 0 else 1
  | .obj _ _ => 1

/-- `create_object(className, params)`: instantiate the named HHVM class
with the packed constructor arguments (both source files define this
helper; the object's own behaviour lives outside the codec). -/
def create_object (cls : String) (params : List Value) : Value :=
  .obj cls params

/-! libmongoc constants used by MongoCollection.cpp (values from the
mongoc headers). -/

def MONGOC_WRITE_CONCERN_W_DEFAULT : Int := -2
def MONGOC_INSERT_NONE : Int := 0
def MONGOC_DELETE_NONE : Int := 0
def MONGOC_DELETE_SINGLE_REMOVE : Int := 1
def MONGOC_UPDATE_NONE : Int := 0
def MONGOC_UPDATE_UPSERT : Int := 1
def MONGOC_UPDATE_MULTI_UPDATE : Int := 2

/-- A thrown HHVM exception: its class (`mongoThrow<Cls>`) and message. -/
structure MongoExn where
  cls : String
  msg : String

/-- Per-call resources the source acquires from libmongoc / libbson:
the collection handle from `mongoc_client_get_collection`, a `bson_t`
buffer initialized by `encodeToBSON` (named after the variable), and the
write concern from `mongoc_write_concern_new`. -/
inductive Res where
  | collection : Res
  | bsonBuf (name : String) : Res
  | writeConcern : Res

/-- Events a call emits, in program order: resource acquisition and
release, and each submission to the driver boundary (with the flags, the
document(s) handed to `encodeToBSON`, and the write-concern `w`). -/
inductive Ev where
  | alloc (r : Res) : Ev
  | free (r : Res) : Ev
  | submitInsert (flags : Int) (doc : HArray) (w : Int) : Ev
  | submitDelete (flags : Int) (criteria : HArray) (w : Int) : Ev
  | submitUpdate (flags : Int) (selector upd : HArray) (w : Int) : Ev

/-- Whether two resources are the same. -/
def Res.same : Res → Res → Bool
  | .collection, .collection => true
  | .bsonBuf a, .bsonBuf b => a = b
  | .writeConcern, .writeConcern => true
  | _, _ => false

/-- Whether the trace acquires the resource. -/
def hasAlloc (t : List Ev) (r : Res) : Bool :=
  t.any fun e => match e with | .alloc r2 => r2.same r | _ => false

/-- Whether the trace releases the resource. -/
def hasFree (t : List Ev) (r : Res) : Bool :=
  t.any fun e => match e with | .free r2 => r2.same r | _ => false

/-- Number of driver submissions in the trace. -/
def countSubmits (t : List Ev) : Nat :=
  t.countP fun e =>
    match e with
    | .submitInsert _ _ _ => true
    | .submitDelete _ _ _ => true
    | .submitUpdate _ _ _ _ => true
    | _ => false

/-- The flags of the first delete submission in the trace, if any. -/
def submittedDeleteFlag (t : List Ev) : Option Int :=
  t.findSome? fun e => match e with | .submitDelete f _ _ => some f | _ => none

/-- The flags of the first update submission in the trace, if any. -/
def submittedUpdateFlag (t : List Ev) : Option Int :=
  t.findSome? fun e => match e with | .submitUpdate f _ _ _ => some f | _ => none

/-- The write-concern `w` value of the first insert submission in the
trace, if any. -/
def submittedInsertW (t : List Ev) : Option Int :=
  t.findSome? fun e => match e with | .submitInsert _ _ w => some w | _ => none

/-- Outcome of one libmongoc write call (`mongoc_collection_insert` /
`mongoc_collection_delete`): the boolean return and, for the failure
case, the `bson_error_t` message the driver filled in. -/
structure InsertDriver where
  ret : Bool
  errMessage : String

/-- Outcome of the libmongoc calls an update makes: the boolean return
of `mongoc_collection_update`, the `bson_error_t` message, and — for the
success path — the `cbson_loads`-decoded value of
`mongoc_collection_get_last_error(collection)`. -/
structure UpdateDriver where
  ret : Bool
  errMessage : String
  lastErrorDecoded : HArray

/-- What an insert call leaves behind: the returned value or thrown
exception, the caller's document after the `_id` mutation (the source
mutates through `a.toArrRef()` before any driver call, so the mutation
is observable even when the call throws), and the event trace. -/
structure InsertOutcome where
  result : Except MongoExn Value
  doc : HArray
  trace : List Ev

/-- What a remove call leaves behind. -/
structure RemoveOutcome where
  result : Except MongoExn Value
  trace : List Ev

/-- What an update call leaves behind. -/
structure UpdateOutcome where
  result : Except MongoExn HArray
  trace : List Ev

/-- `HHVM_METHOD(MongoCollection, insert, Variant a, Array options)`
(src/src/MongoCollection.cpp lines 54-98).  `freshOid` is the 24-hex
string `bson_oid_to_string` produces for the freshly generated oid.
The `options` parameter is accepted but never read by the source (the
write concern is always `MONGOC_WRITE_CONCERN_W_DEFAULT`).  On driver
failure the source throws before `mongoc_collection_destroy` /
`bson_destroy`, and `mongoc_write_concern_destroy` is never called on
any path; the trace records exactly the releases the source performs. -/
def MongoCollection.insert (a : HArray) (options : HArray) (freshOid : String)
    (drv : InsertDriver) : InsertOutcome :=
  let doc_array :=
    if !hexists a "_id" then
      hadd a "_id" (create_object "MongoId" [.str freshOid])
    else a
  let w_flag := MONGOC_WRITE_CONCERN_W_DEFAULT
  let t0 := [Ev.alloc .collection, Ev.alloc (.bsonBuf "doc"), Ev.alloc .writeConcern,
             Ev.submitInsert MONGOC_INSERT_NONE doc_array w_flag]
  let _ := options
  if !drv.ret then
    { result := .error ⟨"MongoCursorException", drv.errMessage⟩
      doc := doc_array
      trace := t0 }
  else
    { result := .ok (.bool drv.ret)
      doc := doc_array
      trace := t0 ++ [Ev.free .collection, Ev.free (.bsonBuf "doc")] }

/-- `HHVM_METHOD(MongoCollection, remove, Array criteria, Array options)`
(src/src/MongoCollection.cpp lines 114-153).  `justOne` (inspected only
when `options` is non-empty) selects `MONGOC_DELETE_SINGLE_REMOVE`; on
driver failure the source throws before the two destroys, and the write
concern is never destroyed. -/
def MongoCollection.remove (criteria : HArray) (options : HArray)
    (drv : InsertDriver) : RemoveOutcome :=
  let delete_flag :=
    if !options.isEmpty then
      if toBoolean (hget options "justOne") then MONGOC_DELETE_SINGLE_REMOVE
      else MONGOC_DELETE_NONE
    else MONGOC_DELETE_NONE
  let w_flag := MONGOC_WRITE_CONCERN_W_DEFAULT
  let t0 := [Ev.alloc .collection, Ev.alloc (.bsonBuf "criteria_b"), Ev.alloc .writeConcern,
             Ev.submitDelete delete_flag criteria w_flag]
  if !drv.ret then
    { result := .error ⟨"MongoCursorException", drv.errMessage⟩
      trace := t0 }
  else
    { result := .ok (.bool drv.ret)
      trace := t0 ++ [Ev.free .collection, Ev.free (.bsonBuf "criteria_b")] }

/-- The output array the update success path builds from the decoded
last-operation reply (src/src/MongoCollection.cpp lines 205-221):
sequential `Array::add`s of `ok`, `nModified`, `n`, `updatedExisting`,
`err`, `errmsg`, a freshly constructed argumentless `MongoTimestamp`
under `lastOp`, and the whole decoded reply under `mongoRaw`. -/
def updateOutput (collectionReturn : HArray) : HArray :=
  let o : HArray := []
  let o := hadd o "ok" (.int 1)
  let o := hadd o "nModified" (hget collectionReturn "nModified")
  let o := hadd o "n" (hget collectionReturn "nMatched")
  let o := hadd o "updatedExisting"
    (.bool (decide (0 < toInt64 (hget collectionReturn "nMatched"))))
  let o := hadd o "err" (hget collectionReturn "writeErrors")
  let o := hadd o "errmsg" (hget collectionReturn "writeErrors")
  let o := hadd o "lastOp" (create_object "MongoTimestamp" [])
  let o := hadd o "mongoRaw" (.arr collectionReturn)
  o

/-- `HHVM_METHOD(MongoCollection, update, Array criteria, Array new_object,
Array options)` (src/src/MongoCollection.cpp lines 160-228).  The flag
starts at `MONGOC_UPDATE_NONE`; when `options` is non-empty `multiple`
is evaluated first and then `upsert` overwrites the flag.  The two bson
buffers are destroyed right after the driver call (both paths); the
collection handle is destroyed only on the success path, the write
concern never. -/
def MongoCollection.update (criteria new_object options : HArray)
    (drv : UpdateDriver) : UpdateOutcome :=
  let update_flag :=
    if !options.isEmpty then
      let f := if toBoolean (hget options "multiple") then MONGOC_UPDATE_MULTI_UPDATE
               else MONGOC_UPDATE_NONE
      if toBoolean (hget options "upsert") then MONGOC_UPDATE_UPSERT else f
    else MONGOC_UPDATE_NONE
  let w_flag := MONGOC_WRITE_CONCERN_W_DEFAULT
  let t0 := [Ev.alloc .collection, Ev.alloc (.bsonBuf "selector"), Ev.alloc (.bsonBuf "update"),
             Ev.alloc .writeConcern,
             Ev.submitUpdate update_flag criteria new_object w_flag,
             Ev.free (.bsonBuf "update"), Ev.free (.bsonBuf "selector")]
  if !drv.ret then
    { result := .error ⟨"MongoCursorException", drv.errMessage⟩
      trace := t0 }
  else
    { result := .ok (updateOutput drv.lastErrorDecoded)
      trace := t0 ++ [Ev.free .collection] }

/-- `cbson_loads_visit_timestamp` (src/src/bson_decode.cpp lines
190-203): receives the element's two unsigned 32-bit fields and adds a
`MongoTimestamp` object constructed from the two values, packed as two
separate int64 arguments; returns `false` (continue traversal).  The
result pairs the stop signal with the updated output array. -/
def cbson_loads_visit_timestamp (key : String) (timestamp increment : Nat)
    (output : HArray) : Bool × HArray :=
  (false,
   hadd output key (create_object "MongoTimestamp" [.int (timestamp : Int), .int (increment : Int)]))

/-- Outcome of `bson_iter_init` on a child document/array followed by
`bson_iter_visit_all` with the same visitor table (both are libbson
calls, external to the repository): either initialization failed, or
the child was visited, `stopped` being `bson_iter_visit_all`'s return
(true when traversal was cut short) and `acc` the accumulator the child
visitors filled. -/
inductive ChildVisit where
  | initFailed : ChildVisit
  | visited (stopped : Bool) (acc : HArray) : ChildVisit

/-- `cbson_loads_visit_document` (src/src/bson_decode.cpp lines
262-285): when the child iterator initializes and the child traversal
returns `false` (not stopped), splice the child accumulator into the
parent under the key; otherwise add nothing.  Either way return `false`
so the parent traversal continues. -/
def cbson_loads_visit_document (key : String) (child : ChildVisit)
    (output : HArray) : Bool × HArray :=
  match child with
  | .initFailed => (false, output)
  | .visited stopped obj =>
      if !stopped then (false, hadd output key (.arr obj))
      else (false, output)

/-- `cbson_loads_visit_array` (src/src/bson_decode.cpp lines 287-310):
same structure as the document visitor. -/
def cbson_loads_visit_array (key : String) (child : ChildVisit)
    (output : HArray) : Bool × HArray :=
  match child with
  | .initFailed => (false, output)
  | .visited stopped obj =>
      if !stopped then (false, hadd output key (.arr obj))
      else (false, output)

/-- Little-endian unsigned 32-bit read of the first four bytes of a
buffer (the BSON document length prefix). -/
def readInt32le (buf : List Nat) : Nat :=
  buf.getD 0 0 + 256 * buf.getD 1 0 + 65536 * buf.getD 2 0 + 16777216 * buf.getD 3 0

/-- Modelled from the BSON wire format as implemented by libbson (an
external dependency, not repository code): `bson_reader_read` over an
in-memory buffer yields a document only when at least four bytes remain,
the little-endian length prefix fits inside the buffer, is at least the
5-byte minimum, and the document's final byte is the 0 terminator
(`bson_init_static`); otherwise it returns NULL. -/
def bson_reader_read (buf : List Nat) : Option (List Nat) :=
  if buf.length < 4 then none
  else
    let blen := readInt32le buf
    if buf.length < blen then none
    else if blen < 5 then none
    else if buf.getD (blen - 1) 0 != 0 then none
    else some (buf.take blen)

/-- Modelled from libbson (external dependency): `bson_iter_init`
succeeds exactly when the document buffer has at least the minimal
5 bytes. -/
def bson_iter_init_ok (bson : List Nat) : Bool :=
  decide (5 ≤ bson.length)

/-- `cbson_loads` (src/src/bson_decode.cpp lines 312-326): throws
`MongoException` when `bson_iter_init` fails, otherwise returns the
array `bson_iter_visit_all` filled through the visitor table.
`visitAll` abstracts the libbson traversal driving the visitors. -/
def cbson_loads (bson : List Nat) (visitAll : List Nat → HArray) :
    Except MongoExn HArray :=
  if !bson_iter_init_ok bson then
    .error ⟨"MongoException", "Failed to initialize BSON iterator"⟩
  else .ok (visitAll bson)

/-- `cbson_loads_from_string` (src/src/bson_decode.cpp lines 330-349):
read one document out of the raw byte buffer with `bson_reader_read`;
when the reader yields nothing, throw `MongoException` with the
corruption message; otherwise decode the document with `cbson_loads`. -/
def cbson_loads_from_string (bson : List Nat) (visitAll : List Nat → HArray) :
    Except MongoExn HArray :=
  match bson_reader_read bson with
  | none => .error ⟨"MongoException", "Unexpected end of BSON. Input document is likely corrupted!"⟩
  | some obj => cbson_loads obj visitAll

/-- The spec's example decoded last-operation reply
`{nMatched: 2, nModified: 1, writeErrors: []}`. -/
def exampleUpdateReply : HArray :=
  [("nMatched", .int 2), ("nModified", .int 1), ("writeErrors", .arr [])]

/-! Helper lemmas about the HHVM array model. -/

theorem countKey_eq_zero_of_not_hexists (a : HArray) (k : String)
    (h : hexists a k = false) : countKey a k = 0 := by
  induction a with
  | nil => rfl
  | cons p rest ih =>
      simp only [hexists, List.any_cons, Bool.or_eq_false_iff] at h
      simp only [countKey, List.countP_cons, h.1, if_neg]
      have := ih (by simpa [hexists] using h.2)
      simpa [countKey, h.1] using this

theorem countKey_hadd_of_not_hexists (a : HArray) (k : String) (v : Value)
    (h : hexists a k = false) : countKey (hadd a k v) k = 1 := by
  simp only [hadd, h, Bool.false_eq_true, if_neg, if_false]
  simp [countKey, List.countP_append]
  have h0 := countKey_eq_zero_of_not_hexists a k h
  simpa [countKey] using h0

theorem hget_hadd_of_not_hexists (a : HArray) (k : String) (v : Value)
    (h : hexists a k = false) : hget (hadd a k v) k = v := by
  simp only [hadd, h, Bool.false_eq_true, if_false]
  induction a with
  | nil => simp [hget]
  | cons p rest ih =>
      simp only [hexists, List.any_cons, Bool.or_eq_false_iff] at h
      have hne : ¬(p.1 = k) := of_decide_eq_false h.1
      have hrest := ih (by simpa [hexists] using h.2)
      simpa [List.cons_append, hget, hne] using hrest

theorem insert_doc_eq (a options : HArray) (freshOid : String) (drv : InsertDriver) :
    (MongoCollection.insert a options freshOid drv).doc
      = if !hexists a "_id" then hadd a "_id" (create_object "MongoId" [.str freshOid])
        else a := by
  simp only [MongoCollection.insert]
  split <;> rfl

/-! The claim theorems. -/

/-- C2: for every `insert(doc, options)` call, when `doc` has no `_id`
key the call leaves `doc` with exactly one `_id` key holding the freshly
generated `MongoId` (observable to the caller, since the source mutates
through `a.toArrRef()`); when `doc` already has an `_id` key the
document is left untouched. -/
theorem insert_synthesizes_id (a options : HArray) (freshOid : String)
    (drv : InsertDriver) :
    (hexists a "_id" = false →
      countKey (MongoCollection.insert a options freshOid drv).doc "_id" = 1 ∧
      hget (MongoCollection.insert a options freshOid drv).doc "_id"
        = .obj "MongoId" [.str freshOid]) ∧
    (hexists a "_id" = true →
      (MongoCollection.insert a options freshOid drv).doc = a) := by
  constructor
  · intro h
    rw [insert_doc_eq]
    simp only [h, Bool.not_false, if_true]
    exact ⟨countKey_hadd_of_not_hexists a _ _ h, hget_hadd_of_not_hexists a _ _ h⟩
  · intro h
    rw [insert_doc_eq]
    simp [h]

/-- Witness for C2 at a concrete document without `_id`. -/
theorem insert_synthesizes_id_witness :
    countKey (MongoCollection.insert [("x", Value.int 7)] []
      "4af9f23d8ead0e1d32000000" ⟨true, ""⟩).doc "_id" = 1 ∧
    hget (MongoCollection.insert [("x", Value.int 7)] []
      "4af9f23d8ead0e1d32000000" ⟨true, ""⟩).doc "_id"
      = .obj "MongoId" [.str "4af9f23d8ead0e1d32000000"] :=
  (insert_synthesizes_id [("x", Value.int 7)] [] "4af9f23d8ead0e1d32000000"
    ⟨true, ""⟩).1 rfl

/-- C9: insert never inspects its `options` argument — two calls with
the same document and any two options arguments produce identical
outcomes (result, mutated document and full trace, including the
submission), and the submitted write concern is always the default
level. -/
theorem insert_ignores_options (a o1 o2 : HArray) (freshOid : String)
    (drv : InsertDriver) :
    MongoCollection.insert a o1 freshOid drv = MongoCollection.insert a o2 freshOid drv ∧
    submittedInsertW (MongoCollection.insert a o1 freshOid drv).trace
      = some MONGOC_WRITE_CONCERN_W_DEFAULT := by
  refine ⟨rfl, ?_⟩
  rcases drv with ⟨ret, msg⟩
  cases ret <;> rfl

/-- C10: when a nested document or array element's child iterator fails
to initialize, or the child traversal signals early termination, the
visitor leaves the parent mapping unchanged (the key is silently
omitted) and returns `false` so the parent traversal continues — no
error is raised; only a completed child traversal splices the child in
under the key. -/
theorem child_visit_failure_omits_key (key : String) (output : HArray) :
    cbson_loads_visit_document key .initFailed output = (false, output) ∧
    (∀ acc : HArray,
      cbson_loads_visit_document key (.visited true acc) output = (false, output)) ∧
    cbson_loads_visit_array key .initFailed output = (false, output) ∧
    (∀ acc : HArray,
      cbson_loads_visit_array key (.visited true acc) output = (false, output)) ∧
    (∀ acc : HArray,
      cbson_loads_visit_document key (.visited false acc) output
        = (false, hadd output key (.arr acc))) ∧
    (∀ acc : HArray,
      cbson_loads_visit_array key (.visited false acc) output
        = (false, hadd output key (.arr acc))) :=
  ⟨rfl, fun _ => rfl, rfl, fun _ => rfl, fun _ => rfl, fun _ => rfl⟩

/-- C6: decoding a BSON timestamp element with unsigned 32-bit fields
(seconds, increment) yields a `MongoTimestamp` carrying the two fields
as two separate constructor arguments; the pair is recoverable (never
arithmetically combined), and the decoded form of `(100, 1)` is not
equal to the decoded form of `(0, 100001)`. -/
theorem timestamp_two_fields (key : String) (s i : Nat) (output : HArray)
    (_hs : s < 2 ^ 32) (_hi : i < 2 ^ 32) :
    cbson_loads_visit_timestamp key s i output
      = (false, hadd output key (.obj "MongoTimestamp" [.int (s : Int), .int (i : Int)])) ∧
    (∀ s2 i2 : Nat,
      Value.obj "MongoTimestamp" [.int (s : Int), .int (i : Int)]
        = .obj "MongoTimestamp" [.int (s2 : Int), .int (i2 : Int)] → s = s2 ∧ i = i2) ∧
    Value.obj "MongoTimestamp" [.int 100, .int 1]
      ≠ .obj "MongoTimestamp" [.int 0, .int 100001] := by
  refine ⟨rfl, ?_, ?_⟩
  · intro s2 i2 h
    simp only [Value.obj.injEq, List.cons.injEq, Value.int.injEq, and_true,
      true_and, Nat.cast_inj] at h
    exact h
  · intro h
    simp only [Value.obj.injEq, List.cons.injEq, Value.int.injEq, and_true,
      true_and] at h
    omega

/-- Witness for C6 at the concrete fields of the spec's example. -/
theorem timestamp_two_fields_witness :
    cbson_loads_visit_timestamp "ts" 100 1 []
      = (false, [("ts", Value.obj "MongoTimestamp" [.int 100, .int 1])]) ∧
    Value.obj "MongoTimestamp" [.int 100, .int 1]
      ≠ .obj "MongoTimestamp" [.int 0, .int 100001] :=
  ⟨(timestamp_two_fields "ts" 100 1 [] (by norm_num) (by norm_num)).1,
   (timestamp_two_fields "ts" 100 1 [] (by norm_num) (by norm_num)).2.2⟩

set_option maxHeartbeats 2000000 in
/-- C1: on every successful update call the returned array is the
projection of the decoded last-operation reply: `n` is the reply's
`nMatched`, `nModified` the reply's `nModified`, `updatedExisting` is
true iff `nMatched > 0`, `err` and `errmsg` are both the reply's
`writeErrors` value, `lastOp` is a freshly constructed argumentless
(empty/zero) `MongoTimestamp`, and the full decoded reply is kept under
`mongoRaw`; in particular the reply `{nMatched: 2, nModified: 1,
writeErrors: []}` projects to `n=2`, `nModified=1`,
`updatedExisting=true`, `err=[]`. -/
theorem update_result_projection (criteria new_object options : HArray)
    (drv : UpdateDriver) (h : drv.ret = true) :
    (MongoCollection.update criteria new_object options drv).result
      = .ok (updateOutput drv.lastErrorDecoded) ∧
    (∀ reply : HArray,
      hget (updateOutput reply) "n" = hget reply "nMatched" ∧
      hget (updateOutput reply) "nModified" = hget reply "nModified" ∧
      (hget (updateOutput reply) "updatedExisting" = .bool true
        ↔ 0 < toInt64 (hget reply "nMatched")) ∧
      hget (updateOutput reply) "err" = hget reply "writeErrors" ∧
      hget (updateOutput reply) "errmsg" = hget reply "writeErrors" ∧
      hget (updateOutput reply) "lastOp" = .obj "MongoTimestamp" [] ∧
      hget (updateOutput reply) "mongoRaw" = .arr reply) ∧
    (hget (updateOutput exampleUpdateReply) "n" = .int 2 ∧
     hget (updateOutput exampleUpdateReply) "nModified" = .int 1 ∧
     hget (updateOutput exampleUpdateReply) "updatedExisting" = .bool true ∧
     hget (updateOutput exampleUpdateReply) "err" = .arr []) := by
  refine ⟨?_, ?_, rfl, rfl, rfl, rfl⟩
  · rcases drv with ⟨ret, msg, reply⟩
    obtain rfl : ret = true := h
    rfl
  · intro reply
    refine ⟨rfl, rfl, ?_, rfl, rfl, rfl, rfl⟩
    have e : hget (updateOutput reply) "updatedExisting"
        = Value.bool (decide (0 < toInt64 (hget reply "nMatched"))) := rfl
    rw [e]
    simp

/-- Witness for C1 on the spec's example reply. -/
theorem update_result_projection_witness :
    (MongoCollection.update [] [] [] ⟨true, "", exampleUpdateReply⟩).result
      = .ok (updateOutput exampleUpdateReply) ∧
    hget (updateOutput exampleUpdateReply) "n" = .int 2 ∧
    hget (updateOutput exampleUpdateReply) "updatedExisting" = .bool true :=
  ⟨(update_result_projection [] [] [] ⟨true, "", exampleUpdateReply⟩ rfl).1,
   (update_result_projection [] [] [] ⟨true, "", exampleUpdateReply⟩ rfl).2.2.1,
   (update_result_projection [] [] [] ⟨true, "", exampleUpdateReply⟩ rfl).2.2.2.2.1⟩

theorem submittedUpdateFlag_update (criteria new_object options : HArray)
    (drv : UpdateDriver) :
    submittedUpdateFlag (MongoCollection.update criteria new_object options drv).trace
      = some (if !options.isEmpty then
                if toBoolean (hget options "upsert") then MONGOC_UPDATE_UPSERT
                else if toBoolean (hget options "multiple") then MONGOC_UPDATE_MULTI_UPDATE
                else MONGOC_UPDATE_NONE
              else MONGOC_UPDATE_NONE) := by
  rcases drv with ⟨ret, msg, reply⟩
  cases ret <;> rfl

/-- C3: when both `multiple` and `upsert` are true in the options of an
update call, the flag resolved from `multiple` first is overwritten by
`upsert`, so the call is submitted in upsert mode and not in
multi-update mode. -/
theorem update_upsert_over_multiple (criteria new_object options : HArray)
    (drv : UpdateDriver)
    (hm : toBoolean (hget options "multiple") = true)
    (hu : toBoolean (hget options "upsert") = true) :
    submittedUpdateFlag (MongoCollection.update criteria new_object options drv).trace
      = some MONGOC_UPDATE_UPSERT ∧
    submittedUpdateFlag (MongoCollection.update criteria new_object options drv).trace
      ≠ some MONGOC_UPDATE_MULTI_UPDATE := by
  have hne : options.isEmpty = false := by
    cases options with
    | nil => exact absurd hm (by simp [hget, toBoolean])
    | cons p rest => rfl
  rw [submittedUpdateFlag_update, hne]
  simp [hu, MONGOC_UPDATE_UPSERT, MONGOC_UPDATE_MULTI_UPDATE]

/-- Witness for C3 with both flags set. -/
theorem update_upsert_over_multiple_witness :
    submittedUpdateFlag (MongoCollection.update [] []
      [("multiple", Value.bool true), ("upsert", Value.bool true)]
      ⟨true, "", []⟩).trace = some MONGOC_UPDATE_UPSERT :=
  (update_upsert_over_multiple [] []
    [("multiple", Value.bool true), ("upsert", Value.bool true)]
    ⟨true, "", []⟩ rfl rfl).1

theorem submittedDeleteFlag_remove (criteria options : HArray)
    (drv : InsertDriver) :
    submittedDeleteFlag (MongoCollection.remove criteria options drv).trace
      = some (if !options.isEmpty then
                if toBoolean (hget options "justOne") then MONGOC_DELETE_SINGLE_REMOVE
                else MONGOC_DELETE_NONE
              else MONGOC_DELETE_NONE) := by
  rcases drv with ⟨ret, msg⟩
  cases ret <;> rfl

/-- C4: a remove call with `justOne` true in its options is submitted in
delete-one mode; with empty options or `justOne` absent/false it is
submitted in delete-all-matching mode. -/
theorem remove_mode_selection (criteria options : HArray) (drv : InsertDriver) :
    (toBoolean (hget options "justOne") = true →
      submittedDeleteFlag (MongoCollection.remove criteria options drv).trace
        = some MONGOC_DELETE_SINGLE_REMOVE) ∧
    (toBoolean (hget options "justOne") = false →
      submittedDeleteFlag (MongoCollection.remove criteria options drv).trace
        = some MONGOC_DELETE_NONE) := by
  constructor
  · intro h
    have hne : options.isEmpty = false := by
      cases options with
      | nil => exact absurd h (by simp [hget, toBoolean])
      | cons p rest => rfl
    rw [submittedDeleteFlag_remove, hne]
    simp [h]
  · intro h
    rw [submittedDeleteFlag_remove]
    cases options with
    | nil => rfl
    | cons p rest => simp [h]

/-- Witness for C4: `justOne: true` submits delete-one, empty options
submit delete-all. -/
theorem remove_mode_selection_witness :
    submittedDeleteFlag (MongoCollection.remove [] [("justOne", Value.bool true)]
      ⟨true, ""⟩).trace = some MONGOC_DELETE_SINGLE_REMOVE ∧
    submittedDeleteFlag (MongoCollection.remove [] [] ⟨true, ""⟩).trace
      = some MONGOC_DELETE_NONE :=
  ⟨(remove_mode_selection [] [("justOne", Value.bool true)] ⟨true, ""⟩).1 rfl,
   (remove_mode_selection [] [] ⟨true, ""⟩).2 rfl⟩

/-- C5: decoding any buffer truncated below the 5-byte BSON minimum
fails with the corruption exception, for every possible behaviour of the
element traversal — it never returns a (partial) document. -/
theorem truncated_bson_decode_fails (buf : List Nat)
    (visitAll : List Nat → HArray) (h : buf.length < 5) :
    cbson_loads_from_string buf visitAll
      = .error ⟨"MongoException",
          "Unexpected end of BSON. Input document is likely corrupted!"⟩ := by
  have hread : bson_reader_read buf = none := by
    unfold bson_reader_read
    by_cases h4 : buf.length < 4
    · simp [h4]
    · have hlen : buf.length = 4 := by omega
      by_cases h5 : buf.length < readInt32le buf
      · simp [h4, h5]
      · have hsmall : readInt32le buf < 5 := by omega
        simp [h4, h5, hsmall]
  unfold cbson_loads_from_string
  rw [hread]

/-- Witness for C5 on a 3-byte buffer. -/
theorem truncated_bson_decode_fails_witness :
    cbson_loads_from_string [4, 0, 0] (fun _ => [])
      = .error ⟨"MongoException",
          "Unexpected end of BSON. Input document is likely corrupted!"⟩ :=
  truncated_bson_decode_fails [4, 0, 0] (fun _ => []) (by decide)

/-- C7: whenever the driver reports a write failure, insert, remove and
update each throw `MongoCursorException` carrying the driver's message
verbatim, return no success value, and each call contains exactly one
driver submission (no internal retry). -/
theorem write_failure_raises (a criteria selector upd o1 o2 o3 : HArray)
    (freshOid : String) (di dr : InsertDriver) (du : UpdateDriver)
    (h1 : di.ret = false) (h2 : dr.ret = false) (h3 : du.ret = false) :
    (MongoCollection.insert a o1 freshOid di).result
      = .error ⟨"MongoCursorException", di.errMessage⟩ ∧
    countSubmits (MongoCollection.insert a o1 freshOid di).trace = 1 ∧
    (MongoCollection.remove criteria o2 dr).result
      = .error ⟨"MongoCursorException", dr.errMessage⟩ ∧
    countSubmits (MongoCollection.remove criteria o2 dr).trace = 1 ∧
    (MongoCollection.update selector upd o3 du).result
      = .error ⟨"MongoCursorException", du.errMessage⟩ ∧
    countSubmits (MongoCollection.update selector upd o3 du).trace = 1 := by
  rcases di with ⟨r1, m1⟩
  rcases dr with ⟨r2, m2⟩
  rcases du with ⟨r3, m3, rep⟩
  obtain rfl : r1 = false := h1
  obtain rfl : r2 = false := h2
  obtain rfl : r3 = false := h3
  exact ⟨rfl, rfl, rfl, rfl, rfl, rfl⟩

/-- Witness for C7 at concrete failing drivers. -/
theorem write_failure_raises_witness :
    (MongoCollection.insert [] [] "4af9f23d8ead0e1d32000000"
        ⟨false, "insert failed"⟩).result
      = .error ⟨"MongoCursorException", "insert failed"⟩ ∧
    (MongoCollection.remove [] [] ⟨false, "remove failed"⟩).result
      = .error ⟨"MongoCursorException", "remove failed"⟩ ∧
    (MongoCollection.update [] [] [] ⟨false, "update failed", []⟩).result
      = .error ⟨"MongoCursorException", "update failed"⟩ :=
  ⟨(write_failure_raises [] [] [] [] [] [] [] "4af9f23d8ead0e1d32000000"
      ⟨false, "insert failed"⟩ ⟨false, "remove failed"⟩
      ⟨false, "update failed", []⟩ rfl rfl rfl).1,
   (write_failure_raises [] [] [] [] [] [] [] "4af9f23d8ead0e1d32000000"
      ⟨false, "insert failed"⟩ ⟨false, "remove failed"⟩
      ⟨false, "update failed", []⟩ rfl rfl rfl).2.2.1,
   (write_failure_raises [] [] [] [] [] [] [] "4af9f23d8ead0e1d32000000"
      ⟨false, "insert failed"⟩ ⟨false, "remove failed"⟩
      ⟨false, "update failed", []⟩ rfl rfl rfl).2.2.2.2.1⟩

/-- C8 is violated by the code: on the failure path insert (and remove)
throw before `mongoc_collection_destroy`/`bson_destroy`, so the
collection handle and the encoded buffer they allocated are never
released there; update releases its buffers but not the collection
handle on failure; and `mongoc_write_concern_destroy` is called on no
path at all, so the write-concern value leaks even from successful
calls. -/
theorem resource_release_violated :
    (hasAlloc (MongoCollection.insert [("x", Value.int 1)] []
        "4af9f23d8ead0e1d32000000" ⟨false, "boom"⟩).trace .collection = true ∧
     hasFree (MongoCollection.insert [("x", Value.int 1)] []
        "4af9f23d8ead0e1d32000000" ⟨false, "boom"⟩).trace .collection = false) ∧
    hasFree (MongoCollection.insert [("x", Value.int 1)] []
        "4af9f23d8ead0e1d32000000" ⟨false, "boom"⟩).trace (.bsonBuf "doc") = false ∧
    (hasAlloc (MongoCollection.insert [("x", Value.int 1)] []
        "4af9f23d8ead0e1d32000000" ⟨true, ""⟩).trace .writeConcern = true ∧
     hasFree (MongoCollection.insert [("x", Value.int 1)] []
        "4af9f23d8ead0e1d32000000" ⟨true, ""⟩).trace .writeConcern = false) ∧
    hasFree (MongoCollection.remove [] [] ⟨false, "boom"⟩).trace .collection = false ∧
    hasFree (MongoCollection.remove [] [] ⟨true, ""⟩).trace .writeConcern = false ∧
    hasFree (MongoCollection.update [] [] [] ⟨false, "boom", []⟩).trace .collection = false ∧
    hasFree (MongoCollection.update [] [] [] ⟨true, "", []⟩).trace .writeConcern = false := by
  decide

end MongoHHVM
